/-
Verification of the kopf invocation core (`kopf/reactor/invocation.py`) and
the object-hierarchy utilities (`kopf/toolkits/hierarchies.py`), via a
shallow embedding of the Python code into Lean.

Python values that appear in dicts and handler arguments are modelled by
`PyObj`; Python dicts by association lists (`PyDict`); Python errors by
`PyErr`.  The cause class hierarchy of `kopf.reactor.causation` is modelled
as a tagged variant (`Cause`) with per-tier data records, mirroring the
inheritance chain BaseCause <- ActivityCause, BaseCause <- ResourceCause <-
ResourceWatchingCause / ResourceChangingCause.
-/
import Mathlib

namespace Kopf

/-- Python errors that the embedded code can raise. -/
inductive PyErr where
  | lookupError
  | attributeError
  | typeError
  deriving DecidableEq, Repr

/-- Python values: `None`, strings, integers, dicts, lists, `DictView`
objects (read-only views into a body at a fixed key), and foreign
objects (loggers, patches, memos, diffs, raw events ...) identified by id. -/
inductive PyObj where
  | none
  | str (s : String)
  | int (n : Int)
  | dict (d : List (String × PyObj))
  | list (xs : List PyObj)
  | view (body : List (String × PyObj)) (key : String)
  | foreign (id : Nat)

/-- Python dicts with string keys: association lists, first match wins. -/
abbrev PyDict := List (String × PyObj)

/-- `d[k]` lookup: first matching key. -/
def dlookup (d : PyDict) (k : String) : Option PyObj :=
  match d with
  | [] => Option.none
  | (k2, v) :: rest => if k2 = k then some v else dlookup rest k

/-- `d[k] = v`: replace the first matching key in place, else append. -/
def dset (d : PyDict) (k : String) (v : PyObj) : PyDict :=
  match d with
  | [] => [(k, v)]
  | (k2, v2) :: rest => if k2 = k then (k2, v) :: rest else (k2, v2) :: dset rest k v

/-- `del d[k]`: remove the first matching key. -/
def ddel (d : PyDict) (k : String) : PyDict :=
  match d with
  | [] => []
  | (k2, v2) :: rest => if k2 = k then rest else (k2, v2) :: ddel rest k

/-- `d.get(k, default)`. -/
def dgetD (d : PyDict) (k : String) (dflt : PyObj) : PyObj :=
  (dlookup d k).getD dflt

/-- `k in d`. -/
def dmem (d : PyDict) (k : String) : Bool :=
  (dlookup d k).isSome

/-- Attribute access `.get`/`.setdefault` requires a dict receiver;
anything else raises `AttributeError` in Python. -/
def asDict (o : PyObj) : Except PyErr PyDict :=
  match o with
  | .dict d => .ok d
  | _ => .error .attributeError

/-- A list receiver, for `ownerReferences` manipulation. -/
def asList (o : PyObj) : Except PyErr (List PyObj) :=
  match o with
  | .list xs => .ok xs
  | _ => .error .typeError

/-- The typed contract of `kopf.structs.bodies.Body` (a `TypedDict`): the
`metadata` key, when present, holds a mapping (`bodies.Meta`).  Absence of
`metadata` is allowed (the `TypedDict` is `total=False`). -/
def metaWF (d : PyDict) : Bool :=
  match dlookup d "metadata" with
  | some (.dict _) => true
  | some _ => false
  | Option.none => true

/-- A resource body: a string-keyed nested mapping obeying the `Body` type
contract on its `metadata` field. -/
abbrev Body := { d : PyDict // metaWF d = true }

/-- `body.get('metadata', {}).get(key)` — the defensive extraction pattern
used by `build_kwargs` (invocation.py lines 76-78) and by the hierarchy
utilities.  The outer `.get` never raises (the receiver is a dict); the
inner `.get` raises `AttributeError` when the `metadata` value is not a
mapping, and returns `None` when the field is absent. -/
def metaGet (body : PyDict) (key : String) : Except PyErr PyObj := do
  let m ← asDict (dgetD body "metadata" (.dict []))
  pure (dgetD m key .none)

theorem metaGet_ok (body : PyDict) (h : metaWF body = true) (key : String) :
    metaGet body key =
      .ok (match dlookup body "metadata" with
           | some (.dict m) => dgetD m key .none
           | _ => .none) := by
  unfold metaGet metaWF at *
  cases hm : dlookup body "metadata" with
  | none => simp [hm, dgetD, asDict, dlookup]
  | some v =>
    cases v <;> simp_all [dgetD, asDict]

/-! ## The cause hierarchy (`kopf.reactor.causation`)

Each record mirrors one class of the hierarchy; `extends` mirrors
inheritance.  Opaque runtime objects (logger, patch, memo, diff, old, new,
the raw watch-event) are `PyObj`s. -/

structure BaseData where
  logger : PyObj

structure ActivityData extends BaseData where
  activity : PyObj

structure ResourceData extends BaseData where
  patch : PyObj
  memo : PyObj
  body : Body

structure WatchingData extends ResourceData where
  raw : PyObj
  type : PyObj

structure ChangingData extends ResourceData where
  reason : String
  diff : PyObj
  old : PyObj
  new : PyObj

/-- A cause instance: exactly one concrete variant tag is active. -/
inductive Cause where
  | base (d : BaseData)
  | activity (d : ActivityData)
  | resource (d : ResourceData)
  | watching (d : WatchingData)
  | changing (d : ChangingData)

/-- `cause.logger`: available on every variant (BaseCause field). -/
def Cause.loggerOf : Cause → PyObj
  | .base d => d.logger
  | .activity d => d.logger
  | .resource d => d.logger
  | .watching d => d.logger
  | .changing d => d.logger

/-- `isinstance(cause, ResourceCause)` — the resource-tier data, shared by
`ResourceCause` and its descendants. -/
def Cause.resourceData : Cause → Option ResourceData
  | .resource d => some d
  | .watching d => some d.toResourceData
  | .changing d => some d.toResourceData
  | _ => Option.none

/-! ## `build_kwargs` (invocation.py lines 48-94)

The kwargs dict is modelled as a finite map `String → Option KVal`; keyword
values are either plain Python objects or the cause object itself. -/

/-- A value stored in a kwargs dict. -/
inductive KVal where
  | obj (o : PyObj)
  | causeV (c : Cause)

/-- The kwargs mapping. -/
abbrev KDict := String → Option KVal

/-- The empty dict `{}`. -/
def kdEmpty : KDict := fun _ => Option.none

/-- Setting one key — `d[k] = v`, i.e. one keyword of a `dict.update` call. -/
def kdSet (d : KDict) (k : String) (v : KVal) : KDict :=
  fun s => if s = k then some v else d s

/-- `d.update(e)`: every key of `e` overwrites; other keys are kept. -/
def kdUpdate (d e : KDict) : KDict :=
  fun s => match e s with
    | some v => some v
    | Option.none => d s

/-- Lines 59-63: `if isinstance(cause, BaseCause): update(cause=, logger=)`. -/
def baseOverlay (cause : Option Cause) (nk : KDict) : KDict :=
  match cause with
  | some c => kdSet (kdSet nk "cause" (.causeV c)) "logger" (.obj c.loggerOf)
  | Option.none => nk

/-- Lines 64-67: `if isinstance(cause, ActivityCause): update(activity=)`. -/
def activityOverlay (cause : Option Cause) (nk : KDict) : KDict :=
  match cause with
  | some (.activity d) => kdSet nk "activity" (.obj d.activity)
  | _ => nk

/-- Lines 68-79: `if isinstance(cause, ResourceCause): update(patch=, memo=,
body=, spec=, meta=, status=, uid=, name=, namespace=)`, with the
`uid`/`name`/`namespace` values pulled via `body.get('metadata', {}).get(...)`. -/
def resourceOverlay (cause : Option Cause) (nk : KDict) : Except PyErr KDict :=
  match (cause.map Cause.resourceData).join with
  | some rd => do
      let uid ← metaGet rd.body.val "uid"
      let nam ← metaGet rd.body.val "name"
      let ns ← metaGet rd.body.val "namespace"
      pure (kdSet (kdSet (kdSet (kdSet (kdSet (kdSet (kdSet (kdSet (kdSet nk
        "patch" (.obj rd.patch))
        "memo" (.obj rd.memo))
        "body" (.obj (.dict rd.body.val)))
        "spec" (.obj (.view rd.body.val "spec")))
        "meta" (.obj (.view rd.body.val "metadata")))
        "status" (.obj (.view rd.body.val "status")))
        "uid" (.obj uid))
        "name" (.obj nam))
        "namespace" (.obj ns))
  | Option.none => pure nk

/-- Lines 80-84: `if isinstance(cause, ResourceWatchingCause): update(event=raw,
type=type)`. -/
def watchingOverlay (cause : Option Cause) (nk : KDict) : KDict :=
  match cause with
  | some (.watching d) => kdSet (kdSet nk "event" (.obj d.raw)) "type" (.obj d.type)
  | _ => nk

/-- Lines 85-92: `if isinstance(cause, ResourceChangingCause): update(
event=reason, reason=reason, diff=diff, old=old, new=new)`. -/
def changingOverlay (cause : Option Cause) (nk : KDict) : KDict :=
  match cause with
  | some (.changing d) =>
      kdSet (kdSet (kdSet (kdSet (kdSet nk
        "event" (.obj (.str d.reason)))
        "reason" (.obj (.str d.reason)))
        "diff" (.obj d.diff))
        "old" (.obj d.old))
        "new" (.obj d.new)
  | _ => nk

/-- `build_kwargs(cause=None, **kwargs)` (invocation.py lines 48-94):
`new_kwargs = {}`, `new_kwargs.update(kwargs)`, then the five `isinstance`
overlays in source order, then `return new_kwargs`. -/
def build_kwargs (cause : Option Cause) (kwargs : KDict) : Except PyErr KDict := do
  let nk := kdUpdate kdEmpty kwargs
  let nk := baseOverlay cause nk
  let nk := activityOverlay cause nk
  let nk ← resourceOverlay cause nk
  let nk := watchingOverlay cause nk
  let nk := changingOverlay cause nk
  pure nk

/-! ### A heap-level rendering of `build_kwargs`

To state that the caller's `kwargs` dict is never mutated in place, the
dict identities are made explicit: a heap maps references to dict values;
`new_kwargs = {}` allocates the fresh reference `nref`; every `.update`
call in the source writes through `nref` only, never through the caller's
reference `kref`. -/

/-- Write one dict through a reference. -/
def hset (h : Nat → KDict) (i : Nat) (d : KDict) : Nat → KDict :=
  fun j => if j = i then d else h j

/-- `build_kwargs` with the two dict references explicit; returns the final
heap and the reference holding the result. -/
def build_kwargs_heap (cause : Option Cause) (h : Nat → KDict) (kref nref : Nat) :
    Except PyErr ((Nat → KDict) × Nat) := do
  let h := hset h nref kdEmpty
  let h := hset h nref (kdUpdate (h nref) (h kref))
  let h := hset h nref (baseOverlay cause (h nref))
  let h := hset h nref (activityOverlay cause (h nref))
  let d ← resourceOverlay cause (h nref)
  let h := hset h nref d
  let h := hset h nref (watchingOverlay cause (h nref))
  let h := hset h nref (changingOverlay cause (h nref))
  pure (h, nref)

theorem hset_same (h : Nat → KDict) (i : Nat) (d : KDict) : hset h i d i = d := by
  simp [hset]

theorem hset_other (h : Nat → KDict) (i j : Nat) (d : KDict) (hne : j ≠ i) :
    hset h i d j = h j := by
  simp [hset, hne]

/-- The heap rendering agrees with the pure `build_kwargs` on the result and
leaves the caller's dict untouched. -/
theorem build_kwargs_heap_spec (cause : Option Cause) (h : Nat → KDict)
    (kref nref : Nat) (hne : kref ≠ nref) :
    build_kwargs_heap cause h kref nref =
      (build_kwargs cause (h kref)).map
        (fun r => (fun j => if j = nref then r else h j, nref)) := by
  cases hr : resourceOverlay cause
      (activityOverlay cause (baseOverlay cause (kdUpdate kdEmpty (h kref)))) with
  | error e =>
      simp [build_kwargs_heap, build_kwargs, hset, hne, hr, Except.map]
  | ok d =>
      simp [build_kwargs_heap, build_kwargs, hset, hne, hr, Except.map]
      funext j
      by_cases hj : j = nref <;> simp [hset, hj]

/-! ## `is_async_fn` (invocation.py lines 153-163)

An invokable is modelled structurally: a core callable (with its native
sync/async calling convention), possibly wrapped by `functools.partial`
layers (which bind arguments) or by decorator layers exposing a
`__wrapped__` back-reference (`functools.wraps`). -/

/-- The static shape of an invokable. -/
inductive Fn where
  | plain (isCoro : Bool)
  | part (inner : Fn) (boundArgs : List PyObj)
  | wrapped (inner : Fn)

/-- `is_async_fn(fn)`:
`None` is not async; a `functools.partial` is classified by its `.func`;
a callable with `__wrapped__` is classified by the wrapped target; any
other callable by `asyncio.iscoroutinefunction`. -/
def is_async_fn : Option Fn → Bool
  | Option.none => false
  | some (.part inner _) => is_async_fn (some inner)
  | some (.wrapped inner) => is_async_fn (some inner)
  | some (.plain isCoro) => isCoro

/-- The native classification of the innermost unwrapped callable —
the specification-level meaning of "async". -/
def Fn.core : Fn → Bool
  | .plain isCoro => isCoro
  | .part inner _ => inner.core
  | .wrapped inner => inner.core

/-- Wrap a callable in `n` alternating wrap/partial layers (for depth
statements). -/
def Fn.wrapN : Nat → Fn → Fn
  | 0, f => f
  | n + 1, f => .wrapped (.part (Fn.wrapN n f) [])

/-! ### Dynamic classification (for the termination claim)

At the Python runtime level the partial/`__wrapped__` chain is an object
graph, which a malformed program can make cyclic; CPython bounds the
recursion of `is_async_fn` by the interpreter recursion limit, so an
unresolvable chain raises `RecursionError` (a fatal programming error)
rather than returning a silent classification.  The object graph is a map
from object ids to object shapes; the recursion limit is explicit fuel. -/

/-- The runtime shape of one callable object in the object graph. -/
inductive ObjShape where
  | plain (isCoro : Bool)
  | partOf (inner : Nat)
  | wrappedOf (inner : Nat)

/-- A fatal `RecursionError`. -/
inductive RecErr where
  | recursionError
  deriving DecidableEq

/-- `is_async_fn` over the runtime object graph, with the interpreter
recursion limit as fuel.  Exhausting the fuel is CPython's
`RecursionError`. -/
def is_async_fn_dyn (heap : Nat → ObjShape) : Nat → Option Nat → Except RecErr Bool
  | _, Option.none => .ok false
  | 0, some _ => .error .recursionError
  | fuel + 1, some r =>
      match heap r with
      | .plain isCoro => .ok isCoro
      | .partOf inner => is_async_fn_dyn heap fuel (some inner)
      | .wrappedOf inner => is_async_fn_dyn heap fuel (some inner)

/-- The chain starting at object `r` is acyclic and reaches a core callable
in exactly `n` unwrap steps. -/
inductive Resolves (heap : Nat → ObjShape) : Nat → Nat → Prop where
  | core (r : Nat) (isCoro : Bool) (h : heap r = .plain isCoro) : Resolves heap r 0
  | step (r inner n : Nat)
      (h : heap r = .partOf inner ∨ heap r = .wrappedOf inner)
      (hrec : Resolves heap inner n) : Resolves heap r (n + 1)

/-! ## `invoke` (invocation.py lines 97-150)

Python exception objects are `PyObj`s (identity matters for claim C2).
A handler is its static shape (for `is_async_fn`) plus its calling
semantics: what it returns or raises when called with given positional
args and kwargs. -/

/-- What the caller of `invoke` observes. -/
inductive InvokeResult where
  | returned (v : PyObj)
  | raised (e : PyObj)
  | cancelled

/-- A handler passed to `invoke`. -/
structure Handler where
  shape : Fn
  run : List PyObj → KDict → Except PyObj PyObj

/-- The `while not future.done()` loop of invocation.py lines 140-148 under
an environment schedule.  `cancels` shielded waits are interrupted by a
`CancelledError` delivery while the future is still pending (line 144:
each is caught and recorded, and the wait is re-entered); after those, the
future is complete, and its completion is observed either by one final
shielded await (`doneByAwait = true`, which returns the handler's value or
re-raises the handler's error out of the loop, since only `CancelledError`
is caught) or at the loop's `future.done()` re-check (`doneByAwait =
false`, after which lines 146-148 run: a recorded cancellation is raised,
else `future.result()` returns the value or re-raises the error).
`canc` is the `cancellation` variable (line 140, initially `None`).
Returns the surfaced outcome and the number of shielded awaits. -/
def waitLoop (fout : Except PyObj PyObj) : Nat → Bool → Bool → InvokeResult × Nat
  | 0, doneByAwait, canc =>
      if doneByAwait then
        match fout with
        | .error e => (.raised e, 1)
        | .ok v => if canc then (.cancelled, 1) else (.returned v, 1)
      else
        if canc then (.cancelled, 0)
        else match fout with
          | .error e => (.raised e, 0)
          | .ok v => (.returned v, 0)
  | n + 1, doneByAwait, _ =>
      let r := waitLoop fout n doneByAwait true
      (r.1, r.2 + 1)

/-- `invoke(fn, *args, cause=None, **kwargs)` (invocation.py lines 97-150).
`sched = (cancels, doneByAwait)` is the environment schedule for the
blocking path (ignored on the async path).  Returns the surfaced outcome,
the number of shielded awaits performed, and the log of calls made to the
handler (each with its positional args and the kwargs it received). -/
def invoke (fn : Handler) (args : List PyObj) (sched : Nat × Bool)
    (cause : Option Cause) (kwargs : KDict) :
    Except PyErr (InvokeResult × Nat × List (List PyObj × KDict)) := do
  let merged ← build_kwargs cause kwargs
  if is_async_fn (some fn.shape) then
    -- line 121: result = await fn(*args, **kwargs) — direct call, one await,
    -- the handler's error or result passes through as-is.
    match fn.run args merged with
    | .error e => pure (.raised e, 0, [(args, merged)])
    | .ok v => pure (.returned v, 0, [(args, merged)])
  else
    -- lines 126-139: real_fn = functools.partial(fn, *args, **kwargs),
    -- wrapped in a context snapshot and submitted to the executor; the
    -- worker thread calls the handler exactly once with (args, merged).
    let fout := fn.run args merged
    let r := waitLoop fout sched.1 sched.2 false
    pure (r.1, r.2, [(args, merged)])

/-! ## The `context` manager (invocation.py lines 30-45) -/

/-- The ambient context-variable store: variable id to current value
(`Option.none` = unset). -/
abbrev CtxState := Nat → Option PyObj

/-- `var.set(val)` (the state change; the returned token is the prior
state `σ v`). -/
def setVar (σ : CtxState) (v : Nat) (val : PyObj) : CtxState :=
  fun u => if u = v then some val else σ u

/-- `var.reset(token)`: restore the variable to the token's saved prior
state (possibly "unset"). -/
def resetVar (σ : CtxState) (v : Nat) (tok : Option PyObj) : CtxState :=
  fun u => if u = v then tok else σ u

/-- The entry loop (lines 39-41): set each variable in sequence, recording
`(var, token)` pairs in binding order. -/
def ctxEnter : List (Nat × PyObj) → CtxState → List (Nat × Option PyObj) × CtxState
  | [], σ => ([], σ)
  | (v, val) :: rest, σ =>
      let tok := σ v
      let r := ctxEnter rest (setVar σ v val)
      ((v, tok) :: r.1, r.2)

/-- The `finally` restore loop (lines 43-45): reset every bound variable,
in reverse order of binding. -/
def ctxExit (toks : List (Nat × Option PyObj)) (σ : CtxState) : CtxState :=
  toks.reverse.foldl (fun σ2 vt => resetVar σ2 vt.1 vt.2) σ

/-- How the wrapped block finishes; the `finally` clause runs in every
case and the outcome passes through unchanged. -/
inductive BodyOutcome where
  | completed (v : PyObj)
  | raised (e : PyObj)
  | cancelled

/-- The `context` manager (invocation.py lines 30-45): bind all values,
run the body, restore on the way out whatever the outcome. -/
def context (values : List (Nat × PyObj)) (body : BodyOutcome) (σ : CtxState) :
    BodyOutcome × CtxState :=
  let r := ctxEnter values σ
  (body, ctxExit r.1 r.2)

/-- The `finally` restore loop when `var.reset` itself may raise (for the
variables selected by `failv`): the plain `for` loop of lines 44-45 has no
per-iteration exception guard, so the first failing reset propagates and
the loop body never runs for the remaining tokens.  Takes the token list
already reversed; returns the error (if any), the state reached, and the
variables whose reset was attempted, in attempt order. -/
def ctxExitF (failv : Nat → Bool) : List (Nat × Option PyObj) → CtxState →
    Option Unit × CtxState × List Nat
  | [], σ => (Option.none, σ, [])
  | (v, t) :: rest, σ =>
      if failv v then (some (), σ, [v])
      else
        let r := ctxExitF failv rest (resetVar σ v t)
        (r.1, r.2.1, v :: r.2.2)

/-- The `context` manager with possibly-failing resets. -/
def contextF (failv : Nat → Bool) (values : List (Nat × PyObj)) (σ : CtxState) :
    Option Unit × CtxState × List Nat :=
  let r := ctxEnter values σ
  ctxExitF failv r.1.reverse r.2

/-! ## Hierarchy utilities (`kopf/toolkits/hierarchies.py`) -/

mutual
/-- Python `==` on values.  Structural; scalar cases are exact, container
cases are order-sensitive (the code only compares `uid` scalars). -/
def PyObj.beq : PyObj → PyObj → Bool
  | .none, .none => true
  | .str a, .str b => a == b
  | .int a, .int b => a == b
  | .dict a, .dict b => beqPairs a b
  | .list a, .list b => beqObjs a b
  | .view a k, .view b k2 => beqPairs a b && k == k2
  | .foreign a, .foreign b => a == b
  | _, _ => false

def beqPairs : List (String × PyObj) → List (String × PyObj) → Bool
  | [], [] => true
  | (k, v) :: r, (k2, v2) :: r2 => k == k2 && PyObj.beq v v2 && beqPairs r r2
  | _, _ => false

def beqObjs : List PyObj → List PyObj → Bool
  | [], [] => true
  | v :: r, v2 :: r2 => PyObj.beq v v2 && beqObjs r r2
  | _, _ => false
end

/-- `x is None`. -/
def PyObj.isNone : PyObj → Bool
  | .none => true
  | _ => false

/-- `metaGet` with an explicit default for the inner `.get` (e.g. the
`.get('labels', {})` call in `adopt`). -/
def metaGetD (body : PyDict) (key : String) (dflt : PyObj) : Except PyErr PyObj := do
  let m ← asDict (dgetD body "metadata" (.dict []))
  pure ((dlookup m key).getD dflt)

/-- A `body['metadata'][k]`-style read off a well-formed body: the field
value, or `None` when absent. -/
def bodyMetaField (b : Body) (k : String) : PyObj :=
  match dlookup b.val "metadata" with
  | some (.dict m) => dgetD m k .none
  | _ => .none

/-- The ambient `handling.cause_var` context variable:
`Option.none` = unset (`.get()` raises `LookupError`),
`some Option.none` = set to `None`, `some (some c)` = set to a cause. -/
abbrev Ambient := Option (Option Cause)

/-- `_guess_owner(owner)` (hierarchies.py lines 159-173): an explicit owner
is returned as-is; otherwise the ambient cause is consulted — an unset
variable (its `LookupError` is caught and passed), a `None` cause, and a
non-resource cause all fall through to `raise LookupError(...)`. -/
def guess_owner (ambient : Ambient) (owner : Option Body) : Except PyErr Body :=
  match owner with
  | some o => .ok o
  | Option.none =>
    match ambient with
    | Option.none => .error .lookupError
    | some c =>
      match c with
      | some cause =>
        match cause.resourceData with
        | some rd => .ok rd.body
        | Option.none => .error .lookupError
      | Option.none => .error .lookupError

/-- Modelled from the spec: `kopf.structs.bodies.build_owner_reference` is
not among the given sources; the spec (§1, §2) specifies the hierarchy
utilities only at their interface, with owner references identified by the
owner's uid (hierarchies.py matches references via `ref.get('uid') ==
owner_ref['uid']`), so the model produces a mapping carrying the owner's
`metadata.uid`. -/
def build_owner_reference (owner : Body) : PyDict :=
  [("uid", bodyMetaField owner "uid")]

/-- Modelled from the spec: `kopf.structs.dicts.walk` is not among the
given sources; the spec treats the hierarchy utilities as mutating "the
resource(s)", so a multi-object argument is an explicit list which `walk`
yields in order (the `nested` refinement is outside the spec's scope and
omitted). -/
def walk (objs : List PyDict) : List PyDict := objs

/-- The `for obj in dicts.walk(objs)` mutation loops: objects are processed
in order; an error while processing one object propagates immediately,
leaving that object and the later ones unmodified. -/
def mutateAll (f : PyDict → Except PyErr PyDict) : List PyDict → Option PyErr × List PyDict
  | [] => (Option.none, [])
  | o :: rest =>
    match f o with
    | .error e => (some e, o :: rest)
    | .ok o2 =>
      let r := mutateAll f rest
      (r.1, o2 :: r.2)

/-- `ref.get('uid')` for one entry of `ownerReferences`. -/
def refGetUid : PyObj → Except PyErr PyObj
  | .dict d => .ok (dgetD d "uid" .none)
  | _ => .error .attributeError

/-- `[ref for ref in refs if ref.get('uid') == owner_ref['uid']]`. -/
def refsMatching (uid : PyObj) : List PyObj → Except PyErr (List PyObj)
  | [] => .ok []
  | r :: rest => do
    let u ← refGetUid r
    let m ← refsMatching uid rest
    pure (if u.beq uid then r :: m else m)

/-- `refs` minus the matching entries (the effect of the `refs.remove(ref)`
loop in `remove_owner_reference`). -/
def refsWithout (uid : PyObj) : List PyObj → Except PyErr (List PyObj)
  | [] => .ok []
  | r :: rest => do
    let u ← refGetUid r
    let m ← refsWithout uid rest
    pure (if u.beq uid then m else r :: m)

/-- `obj.setdefault(k, dflt)`: the value to use (existing, else the
default, which is also inserted — the write-back below makes the insertion
effective). -/
def dsetdefault (d : PyDict) (k : String) (dflt : PyObj) : PyObj :=
  if dmem d k then dgetD d k dflt else dflt

/-- The per-object body of `append_owner_reference` (lines 26-30). -/
def appendRefObj (ref : PyDict) (obj : PyDict) : Except PyErr PyDict := do
  let md ← asDict (dsetdefault obj "metadata" (.dict []))
  let refs ← asList (dsetdefault md "ownerReferences" (.list []))
  let matching ← refsMatching (dgetD ref "uid" .none) refs
  let refs2 := if matching.isEmpty then refs ++ [PyObj.dict ref] else refs
  pure (dset obj "metadata" (.dict (dset md "ownerReferences" (.list refs2))))

/-- `append_owner_reference(objs, owner=None)` (hierarchies.py lines
14-30): guess the owner (before any mutation), build the reference, then
append it to each object that does not already carry the owner's uid. -/
def append_owner_reference (ambient : Ambient) (owner : Option Body)
    (objs : List PyDict) : Option PyErr × List PyDict :=
  match guess_owner ambient owner with
  | .error e => (some e, objs)
  | .ok ro => mutateAll (appendRefObj (build_owner_reference ro)) (walk objs)

/-- The per-object body of `remove_owner_reference` (lines 45-49). -/
def removeRefObj (ref : PyDict) (obj : PyDict) : Except PyErr PyDict := do
  let md ← asDict (dsetdefault obj "metadata" (.dict []))
  let refs ← asList (dsetdefault md "ownerReferences" (.list []))
  let refs2 ← refsWithout (dgetD ref "uid" .none) refs
  pure (dset obj "metadata" (.dict (dset md "ownerReferences" (.list refs2))))

/-- `remove_owner_reference(objs, owner=None)` (hierarchies.py lines
33-49). -/
def remove_owner_reference (ambient : Ambient) (owner : Option Body)
    (objs : List PyDict) : Option PyErr × List PyDict :=
  match guess_owner ambient owner with
  | .error e => (some e, objs)
  | .ok ro => mutateAll (removeRefObj (build_owner_reference ro)) (walk objs)

/-- The per-object body of `label` (lines 67-73). -/
def labelObj (labels : List (String × PyObj)) (forced : Bool) (obj : PyDict) :
    Except PyErr PyDict := do
  let md ← asDict (dsetdefault obj "metadata" (.dict []))
  let lbls ← asDict (dsetdefault md "labels" (.dict []))
  let lbls2 := labels.foldl
    (fun acc kv =>
      if forced then dset acc kv.1 kv.2
      else if dmem acc kv.1 then acc else dset acc kv.1 kv.2)
    lbls
  pure (dset obj "metadata" (.dict (dset md "labels" (.dict lbls2))))

/-- `label(objs, labels, forced=False, force=None)` (hierarchies.py lines
52-73); the deprecated `force=` argument overrides `forced` when given. -/
def label (labels : List (String × PyObj)) (forced : Bool) (force : Option Bool)
    (objs : List PyDict) : Option PyErr × List PyDict :=
  let forced2 := match force with
    | some b => b
    | Option.none => forced
  mutateAll (labelObj labels forced2) (walk objs)

/-- The `str(...)`-rendering used by the f-string `f'{name}-'`: notably,
a `None` name renders as the string `None`. -/
def pyStr : PyObj → String
  | .none => "None"
  | .str s => s
  | .int n => toString n
  | _ => "object"

/-- The per-object body of `harmonize_naming` (lines 104-114). -/
def harmonizeObj (nameVal : PyObj) (forced strict : Bool) (obj : PyDict) :
    Except PyErr PyDict := do
  -- noname = 'metadata' not in obj or not set(obj['metadata']) & {'name', 'generateName'}
  let noname ←
    if dmem obj "metadata" then do
      let md ← asDict (dgetD obj "metadata" (.dict []))
      pure (!(dmem md "name" || dmem md "generateName"))
    else pure true
  if forced || noname then do
    let md ← asDict (dsetdefault obj "metadata" (.dict []))
    if strict then
      let md := dset md "name" nameVal
      let md := if dmem md "generateName" then ddel md "generateName" else md
      pure (dset obj "metadata" (.dict md))
    else
      let md := dset md "generateName" (.str (pyStr nameVal ++ "-"))
      let md := if dmem md "name" then ddel md "name" else md
      pure (dset obj "metadata" (.dict md))
  else pure obj

/-- `harmonize_naming(objs, name=None, forced=False, strict=False)`
(hierarchies.py lines 76-114): a `None` name is defaulted from the guessed
owner's `metadata.name` (consulting the ambient cause) before the
mutation loop runs. -/
def harmonize_naming (ambient : Ambient) (name : PyObj) (forced strict : Bool)
    (objs : List PyDict) : Option PyErr × List PyDict :=
  match (if name.isNone then do
          let owner ← guess_owner ambient Option.none
          metaGet owner.val "name"
         else .ok name) with
  | .error e => (some e, objs)
  | .ok nameVal => mutateAll (harmonizeObj nameVal forced strict) (walk objs)

/-- The per-object body of `adjust_namespace` (lines 138-140). -/
def adjustObj (nsVal : PyObj) (forced : Bool) (obj : PyDict) :
    Except PyErr PyDict := do
  let cur ← metaGet obj "namespace"
  if forced || cur.isNone then do
    let md ← asDict (dsetdefault obj "metadata" (.dict []))
    pure (dset obj "metadata" (.dict (dset md "namespace" nsVal)))
  else pure obj

/-- `adjust_namespace(objs, namespace=None, forced=False)` (hierarchies.py
lines 117-140): a `None` namespace is defaulted from the guessed owner's
`metadata.namespace` (consulting the ambient cause) before the mutation
loop runs. -/
def adjust_namespace (ambient : Ambient) (namespace2 : PyObj) (forced : Bool)
    (objs : List PyDict) : Option PyErr × List PyDict :=
  match (if namespace2.isNone then do
          let owner ← guess_owner ambient Option.none
          metaGet owner.val "namespace"
         else .ok namespace2) with
  | .error e => (some e, objs)
  | .ok nsVal => mutateAll (adjustObj nsVal forced) (walk objs)

/-- `adopt(objs, owner=None)` (hierarchies.py lines 143-156): guess the
owner once, then append its owner reference, harmonize naming with the
owner's `metadata.name`, adjust the namespace with the owner's
`metadata.namespace`, and apply the owner's labels — in that order, each
step receiving the objects as left by the previous one; an error stops the
chain. -/
def adopt (ambient : Ambient) (owner : Option Body) (objs : List PyDict) :
    Option PyErr × List PyDict :=
  match guess_owner ambient owner with
  | .error e => (some e, objs)
  | .ok ro =>
    let r1 := append_owner_reference ambient (some ro) objs
    match r1.1 with
    | some e => (some e, r1.2)
    | Option.none =>
      match metaGet ro.val "name" with
      | .error e => (some e, r1.2)
      | .ok nm =>
        let r2 := harmonize_naming ambient nm false false r1.2
        match r2.1 with
        | some e => (some e, r2.2)
        | Option.none =>
          match metaGet ro.val "namespace" with
          | .error e => (some e, r2.2)
          | .ok ns =>
            let r3 := adjust_namespace ambient ns false r2.2
            match r3.1 with
            | some e => (some e, r3.2)
            | Option.none =>
              match metaGetD ro.val "labels" (.dict []) with
              | .error e => (some e, r3.2)
              | .ok lblObj =>
                match asDict lblObj with
                | .error e => (some e, r3.2)
                | .ok lbls => label lbls false Option.none r3.2

/-! ## Claims -/

/-- C5: `is_async_fn(None)` is false; a partial application is classified
by its inner callable regardless of the bound arguments; a wrapper
exposing a wrapped-target back-reference is classified by the wrapped
target; a bare callable by its native calling convention; and the
classification of any wrapping chain — in particular chains of 3 or more
nested partial/wrap layers — is that of the innermost callable. -/
theorem is_async_fn_classification :
    is_async_fn Option.none = false ∧
    (∀ (inner : Fn) (args : List PyObj),
      is_async_fn (some (.part inner args)) = is_async_fn (some inner)) ∧
    (∀ inner : Fn, is_async_fn (some (.wrapped inner)) = is_async_fn (some inner)) ∧
    (∀ b : Bool, is_async_fn (some (.plain b)) = b) ∧
    (∀ f : Fn, is_async_fn (some f) = f.core) ∧
    (∀ (n : Nat) (f : Fn), is_async_fn (some (Fn.wrapN n f)) = f.core) := by
  have hcore : ∀ f : Fn, is_async_fn (some f) = f.core := by
    intro f
    induction f with
    | plain b => simp [is_async_fn, Fn.core]
    | part inner args ih => simpa [is_async_fn, Fn.core] using ih
    | wrapped inner ih => simpa [is_async_fn, Fn.core] using ih
  refine ⟨by simp [is_async_fn], fun inner args => by simp [is_async_fn],
    fun inner => by simp [is_async_fn], fun b => by simp [is_async_fn], hcore, ?_⟩
  intro n f
  induction n with
  | zero => simpa [Fn.wrapN] using hcore f
  | succ n ih => simpa [Fn.wrapN, is_async_fn] using ih

/-- C6: on the runtime object graph, `is_async_fn` classifies every
acyclic (resolving) chain whose depth is within the recursion limit, and
an unresolvable chain exhausts the recursion limit and surfaces as a fatal
`RecursionError` — never as a silent `false` classification. -/
theorem is_async_fn_dyn_termination :
    ∀ (heap : Nat → ObjShape) (r fuel : Nat),
      (∀ n, Resolves heap r n → n < fuel →
        ∃ b, is_async_fn_dyn heap fuel (some r) = .ok b) ∧
      ((∀ n, ¬ Resolves heap r n) →
        is_async_fn_dyn heap fuel (some r) = .error .recursionError) := by
  intro heap r fuel
  constructor
  · intro n hres
    induction hres generalizing fuel with
    | core r isCoro h =>
      intro hlt
      obtain ⟨m, rfl⟩ := Nat.exists_eq_succ_of_ne_zero (Nat.pos_iff_ne_zero.mp hlt)
      exact ⟨isCoro, by simp [is_async_fn_dyn, h]⟩
    | step r inner n h hrec ih =>
      intro hlt
      obtain ⟨m, rfl⟩ := Nat.exists_eq_succ_of_ne_zero
        (Nat.pos_iff_ne_zero.mp (Nat.lt_of_le_of_lt (Nat.zero_le _) hlt))
      have hm : n < m := Nat.lt_of_succ_lt_succ hlt
      obtain ⟨b, hb⟩ := ih m hm
      cases h with
      | inl hp => exact ⟨b, by simp [is_async_fn_dyn, hp, hb]⟩
      | inr hw => exact ⟨b, by simp [is_async_fn_dyn, hw, hb]⟩
  · intro hno
    induction fuel generalizing r with
    | zero => rfl
    | succ m ih =>
      cases hshape : heap r with
      | plain isCoro => exact absurd (Resolves.core r isCoro hshape) (hno 0)
      | partOf inner =>
        have hinner : ∀ n, ¬ Resolves heap inner n := by
          intro n hn
          exact hno (n + 1) (Resolves.step r inner n (Or.inl hshape) hn)
        simpa [is_async_fn_dyn, hshape] using ih inner hinner
      | wrappedOf inner =>
        have hinner : ∀ n, ¬ Resolves heap inner n := by
          intro n hn
          exact hno (n + 1) (Resolves.step r inner n (Or.inr hshape) hn)
        simpa [is_async_fn_dyn, hshape] using ih inner hinner

/-- A concrete object graph for the C6 witness: object 0 is a partial of
object 1, a plain coroutine function; object 2 wraps itself (a malformed,
unresolvable chain). -/
def c6heap : Nat → ObjShape :=
  fun r => if r = 0 then .partOf 1 else if r = 1 then .plain true else .wrappedOf 2

theorem is_async_fn_dyn_termination_witness :
    (∃ b, is_async_fn_dyn c6heap 5 (some 0) = .ok b) ∧
    is_async_fn_dyn c6heap 5 (some 2) = .error .recursionError := by
  have hres : Resolves c6heap 0 1 :=
    Resolves.step 0 1 0 (Or.inl rfl) (Resolves.core 1 true rfl)
  have hno : ∀ n, ¬ Resolves c6heap 2 n := by
    intro n
    induction n with
    | zero =>
      intro h
      cases h with
      | core r isCoro hb => simp [c6heap] at hb
    | succ m ih =>
      intro h
      cases h with
      | step r inner m2 hor hrec =>
        cases hor with
        | inl hp => simp [c6heap] at hp
        | inr hw =>
          simp [c6heap] at hw
          subst hw
          exact ih hrec
  exact ⟨(is_async_fn_dyn_termination c6heap 0 5).1 1 hres (by decide),
         (is_async_fn_dyn_termination c6heap 2 5).2 hno⟩

/-! ### C7: the context scope restores on every exit path -/

theorem ctxExit_cons (v : Nat) (t : Option PyObj) (toks : List (Nat × Option PyObj))
    (σ : CtxState) :
    ctxExit ((v, t) :: toks) σ = resetVar (ctxExit toks σ) v t := by
  simp [ctxExit, List.foldl_append]

theorem reset_set (σ : CtxState) (v : Nat) (val : PyObj) :
    resetVar (setVar σ v val) v (σ v) = σ := by
  funext u
  by_cases hu : u = v <;> simp [resetVar, setVar, hu]

theorem ctx_restore : ∀ (values : List (Nat × PyObj)) (σ : CtxState),
    ctxExit (ctxEnter values σ).1 (ctxEnter values σ).2 = σ := by
  intro values
  induction values with
  | nil => intro σ; rfl
  | cons hd rest ih =>
    intro σ
    obtain ⟨v, val⟩ := hd
    simp only [ctxEnter
    ]
    rw [ctxExit_cons, ih (setVar σ v val), reset_set]

/-- C7: the context scope binds each variable in sequence and, on every
exit path (normal completion, error, cancellation), restores every bound
variable to its prior state in reverse order of binding; zero bindings is
a no-op, and after exit every variable reads back its pre-scope value. -/
theorem context_restores (values : List (Nat × PyObj)) (body : BodyOutcome)
    (σ : CtxState) :
    context values body σ = (body, σ) := by
  have h := ctx_restore values σ
  simp [context, h]

/-! ### C4, C3, C9: `build_kwargs` -/

theorem kdUpdate_empty (K : KDict) : kdUpdate kdEmpty K = K := by
  funext s
  cases h : K s <;> simp [kdUpdate, kdEmpty, h]

theorem metaGet_body (b : Body) (k : String) :
    metaGet b.val k = .ok (bodyMetaField b k) := by
  rw [metaGet_ok b.val b.property k]
  unfold bodyMetaField
  rfl

theorem resourceOverlay_some (c : Cause) (rd : ResourceData)
    (h : c.resourceData = some rd) (nk : KDict) :
    resourceOverlay (some c) nk =
      .ok (kdSet (kdSet (kdSet (kdSet (kdSet (kdSet (kdSet (kdSet (kdSet nk
        "patch" (.obj rd.patch))
        "memo" (.obj rd.memo))
        "body" (.obj (.dict rd.body.val)))
        "spec" (.obj (.view rd.body.val "spec")))
        "meta" (.obj (.view rd.body.val "metadata")))
        "status" (.obj (.view rd.body.val "status")))
        "uid" (.obj (bodyMetaField rd.body "uid")))
        "name" (.obj (bodyMetaField rd.body "name")))
        "namespace" (.obj (bodyMetaField rd.body "namespace"))) := by
  simp only [resourceOverlay, h, metaGet_body, Option.map, Option.join]
  rfl

/-- `build_kwargs` on any resource-tier cause, resolved to its result
dict. -/
theorem build_kwargs_resolved (c : Cause) (rd : ResourceData) (K : KDict)
    (h : c.resourceData = some rd) :
    build_kwargs (some c) K =
      .ok (changingOverlay (some c) (watchingOverlay (some c)
        (kdSet (kdSet (kdSet (kdSet (kdSet (kdSet (kdSet (kdSet (kdSet
          (activityOverlay (some c) (baseOverlay (some c) (kdUpdate kdEmpty K)))
          "patch" (.obj rd.patch))
          "memo" (.obj rd.memo))
          "body" (.obj (.dict rd.body.val)))
          "spec" (.obj (.view rd.body.val "spec")))
          "meta" (.obj (.view rd.body.val "metadata")))
          "status" (.obj (.view rd.body.val "status")))
          "uid" (.obj (bodyMetaField rd.body "uid")))
          "name" (.obj (bodyMetaField rd.body "name")))
          "namespace" (.obj (bodyMetaField rd.body "namespace"))))) := by
  simp [build_kwargs, resourceOverlay_some c rd h, Except.bind]

/-- C4: with no cause, `build_kwargs` returns the explicit kwargs mapping
unchanged; and for every cause, the caller's kwargs dict is never mutated
in place — in the heap-level rendering, the result is built on a fresh
dict and the caller's reference still holds its original mapping. -/
theorem build_kwargs_identity_and_copy :
    (∀ K : KDict, build_kwargs Option.none K = .ok K) ∧
    (∀ (cause : Option Cause) (h : Nat → KDict) (kref nref : Nat), kref ≠ nref →
      (build_kwargs_heap cause h kref nref).map (fun p => p.1 kref) =
        (build_kwargs cause (h kref)).map (fun _ => h kref)) := by
  constructor
  · intro K
    simp only [build_kwargs, baseOverlay, activityOverlay, resourceOverlay,
      watchingOverlay, changingOverlay, kdUpdate_empty, Option.map, Option.join]
    rfl
  · intro cause h kref nref hne
    rw [build_kwargs_heap_spec cause h kref nref hne]
    cases hb : build_kwargs cause (h kref) with
    | error e => simp [Except.map]
    | ok d => simp [Except.map, hne]

theorem build_kwargs_identity_and_copy_witness :
    ((0 : Nat) ≠ 1) ∧
    (build_kwargs_heap (some (.base ⟨.foreign 0⟩)) (fun _ => kdEmpty) 0 1).map
        (fun p => p.1 0) =
      (build_kwargs (some (.base ⟨.foreign 0⟩)) kdEmpty).map (fun _ => kdEmpty) :=
  ⟨by decide,
   build_kwargs_identity_and_copy.2 (some (.base ⟨.foreign 0⟩)) (fun _ => kdEmpty) 0 1
     (by decide)⟩

/-- C3: for a `ResourceChangingCause` with reason `r` and diff `D` and any
explicit kwargs, the built mapping contains `reason = r`, `event = r` (the
changing-tier overlay, applied after the watching tier in source order,
owns the `event` key), `diff = D`, and the base-tier `cause` and `logger`
keys; holding for every explicit kwargs mapping, the cause-derived entries
win over any explicit entries under the same names. -/
theorem build_kwargs_changing (d : ChangingData) (K : KDict) :
    ∃ R, build_kwargs (some (.changing d)) K = .ok R ∧
      R "reason" = some (.obj (.str d.reason)) ∧
      R "event" = some (.obj (.str d.reason)) ∧
      R "diff" = some (.obj d.diff) ∧
      R "old" = some (.obj d.old) ∧
      R "new" = some (.obj d.new) ∧
      R "cause" = some (.causeV (.changing d)) ∧
      R "logger" = some (.obj (Cause.changing d).loggerOf) := by
  refine ⟨_, build_kwargs_resolved (.changing d) d.toResourceData K rfl,
    ?_, ?_, ?_, ?_, ?_, ?_, ?_⟩
  all_goals
    simp [changingOverlay, watchingOverlay, activityOverlay, baseOverlay, kdSet]

/-- C9: for every resource-tier cause, `build_kwargs` never raises, and the
`uid`/`name`/`namespace` entries are extracted defensively: a body lacking
the `metadata` mapping, or a metadata mapping lacking any of the three
fields, yields a `None` value for the corresponding entry rather than an
error. -/
theorem build_kwargs_defensive (c : Cause) (rd : ResourceData) (K : KDict)
    (h : c.resourceData = some rd) :
    ∃ R, build_kwargs (some c) K = .ok R ∧
      (dlookup rd.body.val "metadata" = Option.none →
        R "uid" = some (.obj .none) ∧ R "name" = some (.obj .none) ∧
        R "namespace" = some (.obj .none)) ∧
      (∀ m, dlookup rd.body.val "metadata" = some (.dict m) →
        (dlookup m "uid" = Option.none → R "uid" = some (.obj .none)) ∧
        (dlookup m "name" = Option.none → R "name" = some (.obj .none)) ∧
        (dlookup m "namespace" = Option.none →
          R "namespace" = some (.obj .none))) := by
  cases c with
  | base d => simp [Cause.resourceData] at h
  | activity d => simp [Cause.resourceData] at h
  | resource d =>
    simp only [Cause.resourceData, Option.some.injEq] at h
    subst h
    refine ⟨_, build_kwargs_resolved (.resource d) d K rfl, ?_, ?_⟩
    · intro hmeta
      refine ⟨?_, ?_, ?_⟩ <;>
        simp [changingOverlay, watchingOverlay, kdSet, bodyMetaField, hmeta]
    · intro m hm
      refine ⟨fun hu => ?_, fun hn => ?_, fun hs => ?_⟩ <;>
        simp [changingOverlay, watchingOverlay, kdSet, bodyMetaField, hm,
          dgetD, *]
  | watching d =>
    simp only [Cause.resourceData, Option.some.injEq] at h
    subst h
    refine ⟨_, build_kwargs_resolved (.watching d) d.toResourceData K rfl, ?_, ?_⟩
    · intro hmeta
      refine ⟨?_, ?_, ?_⟩ <;>
        simp [changingOverlay, watchingOverlay, kdSet, bodyMetaField, hmeta]
    · intro m hm
      refine ⟨fun hu => ?_, fun hn => ?_, fun hs => ?_⟩ <;>
        simp [changingOverlay, watchingOverlay, kdSet, bodyMetaField, hm,
          dgetD, *]
  | changing d =>
    simp only [Cause.resourceData, Option.some.injEq] at h
    subst h
    refine ⟨_, build_kwargs_resolved (.changing d) d.toResourceData K rfl, ?_, ?_⟩
    · intro hmeta
      refine ⟨?_, ?_, ?_⟩ <;>
        simp [changingOverlay, watchingOverlay, kdSet, bodyMetaField, hmeta]
    · intro m hm
      refine ⟨fun hu => ?_, fun hn => ?_, fun hs => ?_⟩ <;>
        simp [changingOverlay, watchingOverlay, kdSet, bodyMetaField, hm,
          dgetD, *]

/-- A resource-tier cause datum with an empty body, for the C9 witness. -/
def c9rd : ResourceData := ⟨⟨.foreign 1⟩, .foreign 2, .foreign 3, ⟨[], rfl⟩⟩

theorem build_kwargs_defensive_witness :
    ((Cause.resource c9rd).resourceData = some c9rd) ∧
    (dlookup c9rd.body.val "metadata" = Option.none) ∧
    (build_kwargs (some (.resource c9rd)) kdEmpty).map
        (fun R => (R "uid", R "name", R "namespace")) =
      .ok (some (.obj .none), some (.obj .none), some (.obj .none)) := by
  refine ⟨rfl, rfl, ?_⟩
  obtain ⟨R, hR, habs, _⟩ := build_kwargs_defensive (.resource c9rd) c9rd kdEmpty rfl
  obtain ⟨h1, h2, h3⟩ := habs rfl
  rw [hR]
  simp [Except.map, h1, h2, h3]

/-! ### C1, C2: `invoke` -/

theorem invoke_def (fn : Handler) (args : List PyObj) (sched : Nat × Bool)
    (cause : Option Cause) (kwargs merged : KDict)
    (hb : build_kwargs cause kwargs = .ok merged) :
    invoke fn args sched cause kwargs =
      if is_async_fn (some fn.shape) then
        match fn.run args merged with
        | .error e => .ok (.raised e, 0, [(args, merged)])
        | .ok v => .ok (.returned v, 0, [(args, merged)])
      else
        .ok ((waitLoop (fn.run args merged) sched.1 sched.2 false).1,
             (waitLoop (fn.run args merged) sched.1 sched.2 false).2,
             [(args, merged)]) := by
  unfold invoke
  rw [hb]
  rfl

theorem waitLoop_count (fout : Except PyObj PyObj) :
    ∀ (n : Nat) (byAwait canc : Bool),
      (waitLoop fout n byAwait canc).2 = n + (if byAwait then 1 else 0) := by
  intro n
  induction n with
  | zero =>
    intro byAwait canc
    cases byAwait <;> cases canc <;> cases fout <;> simp [waitLoop]
  | succ m ih =>
    intro byAwait canc
    simp [waitLoop, ih byAwait true]
    omega

theorem waitLoop_ok_recorded (v : PyObj) :
    ∀ (n : Nat) (byAwait : Bool),
      (waitLoop (.ok v) n byAwait true).1 = InvokeResult.cancelled := by
  intro n
  induction n with
  | zero => intro byAwait; cases byAwait <;> simp [waitLoop]
  | succ m ih => intro byAwait; simp [waitLoop, ih byAwait]

/-- C1: for a blocking handler whose thread completes successfully, if at
least one cancellation request arrives while awaiting the worker-pool
handle, each cancellation is recorded and the wait re-entered (the count
of shielded awaits equals the number of cancellation deliveries, plus the
final completing await when completion is observed by the await); only
after the handle completes is the recorded cancellation surfaced, and it
wins over the handler's successful result, which is discarded. -/
theorem invoke_deferred_cancellation (fn : Handler) (args : List PyObj)
    (cause : Option Cause) (kwargs merged : KDict) (n : Nat) (byAwait : Bool)
    (v : PyObj)
    (hsync : is_async_fn (some fn.shape) = false)
    (hb : build_kwargs cause kwargs = .ok merged)
    (hrun : fn.run args merged = .ok v)
    (hn : 1 ≤ n) :
    invoke fn args (n, byAwait) cause kwargs =
      .ok (.cancelled, n + (if byAwait then 1 else 0), [(args, merged)]) := by
  obtain ⟨m, rfl⟩ := Nat.exists_eq_add_of_le hn
  have h1 : (waitLoop (fn.run args merged) (1 + m) byAwait false).1 =
      InvokeResult.cancelled := by
    have hmm : 1 + m = m + 1 := Nat.add_comm 1 m
    rw [hmm, hrun]
    simp [waitLoop, waitLoop_ok_recorded v m byAwait]
  have h2 := waitLoop_count (fn.run args merged) (1 + m) byAwait false
  rw [invoke_def fn args (1 + m, byAwait) cause kwargs merged hb,
    if_neg (by simp [hsync])]
  simp [h1, h2]

theorem invoke_deferred_cancellation_witness :
    (is_async_fn (some (Fn.plain false)) = false) ∧
    (build_kwargs Option.none kdEmpty = .ok kdEmpty) ∧
    ((1 : Nat) ≤ 2) ∧
    invoke ⟨.plain false, fun _ _ => .ok (.int 7)⟩ [] (2, true) Option.none kdEmpty =
      .ok (.cancelled, 2 + (if true then 1 else 0), [([], kdEmpty)]) := by
  have hsync : is_async_fn (some (Fn.plain false)) = false := by
    simp [is_async_fn]
  refine ⟨hsync, rfl, by decide, ?_⟩
  exact invoke_deferred_cancellation ⟨.plain false, fun _ _ => .ok (.int 7)⟩ []
    Option.none kdEmpty kdEmpty 2 true (.int 7) hsync rfl rfl (by decide)

/-- A blocking handler that raises the exception object `foreign 0`, for
the C2 counterexample. -/
def c2fn : Handler := ⟨.plain false, fun _ _ => .error (.foreign 0)⟩

/-- C2 counterexample: a blocking handler raises the exception `foreign 0`,
one cancellation is recorded during the wait, and the handle's completion
is observed at the loop's `future.done()` re-check; lines 146-147 then
raise the recorded cancellation, so the caller observes a cancellation —
not the handler's error — contradicting the claim that every error raised
by the handler is propagated to the caller. -/
theorem invoke_error_masked_counterexample :
    c2fn.run [] kdEmpty = .error (.foreign 0) ∧
    invoke c2fn [] (1, false) Option.none kdEmpty =
      .ok (.cancelled, 1, [([], kdEmpty)]) ∧
    invoke c2fn [] (1, false) Option.none kdEmpty ≠
      .ok (.raised (.foreign 0), 1, [([], kdEmpty)]) := by
  have hsync : is_async_fn (some c2fn.shape) = false := by
    simp [c2fn, is_async_fn]
  have hv : invoke c2fn [] (1, false) Option.none kdEmpty =
      .ok (.cancelled, 1, [([], kdEmpty)]) := by
    rw [invoke_def c2fn [] (1, false) Option.none kdEmpty kdEmpty rfl,
      if_neg (by simp [hsync])]
    rfl
  refine ⟨rfl, hv, ?_⟩
  rw [hv]
  simp

theorem waitLoop_error_recorded (e : PyObj) :
    ∀ (m : Nat) (byAwait : Bool),
      (waitLoop (.error e) m byAwait true).1 =
        (if byAwait then InvokeResult.raised e else .cancelled) := by
  intro m
  induction m with
  | zero => intro byAwait; cases byAwait <;> simp [waitLoop]
  | succ k ih => intro byAwait; simp [waitLoop, ih byAwait]

/-- C2 (amended): for every handler (sync or async) raising error `E`, the
handler is called exactly once with the merged kwargs and `E` is
propagated to the caller unchanged, never wrapped, never retried — except
on the blocking path when at least one cancellation was recorded during
the wait and the handle's completion is observed at the loop's
`future.done()` re-check rather than by the shielded await, in which case
the recorded cancellation is raised instead of `E`. -/
theorem invoke_error_propagation (fn : Handler) (args : List PyObj)
    (sched : Nat × Bool) (cause : Option Cause) (kwargs merged : KDict)
    (e : PyObj)
    (hb : build_kwargs cause kwargs = .ok merged)
    (hrun : fn.run args merged = .error e) :
    invoke fn args sched cause kwargs =
      .ok ((if is_async_fn (some fn.shape) = false ∧ 1 ≤ sched.1 ∧ sched.2 = false
            then InvokeResult.cancelled else .raised e),
           (if is_async_fn (some fn.shape) then 0
            else sched.1 + (if sched.2 then 1 else 0)),
           [(args, merged)]) := by
  obtain ⟨n, byAwait⟩ := sched
  rw [invoke_def fn args (n, byAwait) cause kwargs merged hb]
  cases hasync : is_async_fn (some fn.shape) with
  | true => simp [hrun, hasync]
  | false =>
    rw [if_neg (by simp [hasync])]
    have hc := waitLoop_count (fn.run args merged) n byAwait false
    cases n with
    | zero =>
      rw [hrun] at hc ⊢
      cases byAwait <;> simp [waitLoop, hc, hasync]
    | succ m =>
      rw [hrun] at hc ⊢
      have h1 : (waitLoop (Except.error e : Except PyObj PyObj) (m + 1) byAwait false).1 =
          (if byAwait then InvokeResult.raised e else .cancelled) := by
        simp [waitLoop, waitLoop_error_recorded e m byAwait]
      cases byAwait <;> simp_all [hasync]

theorem invoke_error_propagation_witness :
    (build_kwargs Option.none kdEmpty = .ok kdEmpty) ∧
    (c2fn.run [] kdEmpty = .error (.foreign 0)) ∧
    invoke c2fn [] (2, true) Option.none kdEmpty =
      .ok ((if is_async_fn (some c2fn.shape) = false ∧ 1 ≤ (2, true).1 ∧ (2, true).2 = false
            then InvokeResult.cancelled else .raised (.foreign 0)),
           (if is_async_fn (some c2fn.shape) then 0
            else (2, true).1 + (if (2, true).2 then 1 else 0)),
           [([], kdEmpty)]) :=
  ⟨rfl, rfl,
   invoke_error_propagation c2fn [] (2, true) Option.none kdEmpty kdEmpty
     (.foreign 0) rfl rfl⟩

/-! ### C8: exception safety of the restore loop -/

/-- C8 counterexample: two bindings; the reset of variable 1 (the first
attempted, since restoration runs in reverse binding order) raises.  The
plain `for` loop of lines 44-45 propagates the error: variable 0 is never
attempted (the attempt log is `[1]` only) and is left at the scope's value
`int 1` rather than restored to its prior unset state — the scope does
not attempt to restore the remaining bound variables. -/
theorem context_restore_abandoned_counterexample :
    (contextF (fun v => v == 1) [(0, .int 1), (1, .int 2)] (fun _ => Option.none)).1 =
      some () ∧
    (contextF (fun v => v == 1) [(0, .int 1), (1, .int 2)] (fun _ => Option.none)).2.2 =
      [1] ∧
    (contextF (fun v => v == 1) [(0, .int 1), (1, .int 2)] (fun _ => Option.none)).2.1 0 =
      some (.int 1) :=
  ⟨rfl, rfl, rfl⟩

/-- C8 (amended): the restore loop is not exception-safe: it attempts
resets in reverse binding order and a failing reset aborts it — the error
propagates, the resets before the failing one are applied, and the
remaining tokens are never attempted. -/
theorem ctxExitF_stops_at_first_failure (failv : Nat → Bool)
    (ts1 : List (Nat × Option PyObj)) (v : Nat) (t : Option PyObj)
    (ts2 : List (Nat × Option PyObj)) (σ : CtxState)
    (hok : ts1.all (fun p => !failv p.1) = true)
    (hfail : failv v = true) :
    ctxExitF failv (ts1 ++ (v, t) :: ts2) σ =
      (some (), ts1.foldl (fun σ2 p => resetVar σ2 p.1 p.2) σ,
       ts1.map Prod.fst ++ [v]) := by
  induction ts1 generalizing σ with
  | nil => simp [ctxExitF, hfail]
  | cons hd tl ih =>
    obtain ⟨v2, t2⟩ := hd
    simp only [List.all_cons, Bool.and_eq_true, Bool.not_eq_true'] at hok
    obtain ⟨h1, h2⟩ := hok
    simp [ctxExitF, h1, ih (resetVar σ v2 t2) h2]

theorem ctxExitF_stops_at_first_failure_witness :
    ([((2 : Nat), (Option.none : Option PyObj))].all
      (fun p => !((fun v => v == 1) p.1)) = true) ∧
    ((fun v => (v : Nat) == 1) 1 = true) ∧
    ctxExitF (fun v => v == 1)
        ([((2 : Nat), (Option.none : Option PyObj))] ++
          (1, Option.none) :: [(0, Option.none)]) (fun _ => Option.none) =
      (some (),
       [((2 : Nat), (Option.none : Option PyObj))].foldl
         (fun σ2 p => resetVar σ2 p.1 p.2) (fun _ => Option.none),
       [((2 : Nat), (Option.none : Option PyObj))].map Prod.fst ++ [1]) :=
  ⟨by decide, rfl,
   ctxExitF_stops_at_first_failure (fun v => v == 1)
     [(2, Option.none)] 1 Option.none [(0, Option.none)] (fun _ => Option.none)
     (by decide) rfl⟩

/-! ### C10: owner defaulting from the ambient cause -/

/-- The ambient cause variable states under which `_guess_owner(None)`
raises `LookupError`: unset, set to `None`, or set to a non-resource
cause. -/
def BadAmbient (a : Ambient) : Prop :=
  a = Option.none ∨ a = some Option.none ∨
    ∃ c, a = some (some c) ∧ c.resourceData = Option.none

theorem guess_owner_bad (a : Ambient) (h : BadAmbient a) :
    guess_owner a Option.none = .error .lookupError := by
  rcases h with rfl | rfl | ⟨c, rfl, hc⟩
  · rfl
  · rfl
  · simp [guess_owner, hc]

/-- A resource cause datum with a fully populated metadata, for the C10
counterexample and witness. -/
def c10rd : ResourceData :=
  ⟨⟨.foreign 1⟩, .foreign 2, .foreign 3,
   ⟨[("metadata", .dict [("name", .str "p"), ("namespace", .str "q"),
      ("uid", .str "u")])], rfl⟩⟩

/-- An owner body without any metadata, for the C10 counterexample. -/
def c10owner : Body := ⟨[], rfl⟩

/-- C10 counterexample: `adopt` is called with an explicit owner whose
metadata lacks a name; it passes `name=None` into `harmonize_naming`,
which re-consults the ambient cause variable: with a resource cause set it
succeeds, with the variable unset it raises `LookupError` — so with an
explicit owner the ambient variable is still consulted, contradicting the
claim. -/
theorem adopt_consults_ambient_counterexample :
    (adopt (some (some (.resource c10rd))) (some c10owner) [[]]).1 = Option.none ∧
    (adopt Option.none (some c10owner) [[]]).1 = some .lookupError := by
  constructor <;> decide

/-- C10 (amended): every listed operation called with its owner (or
name/namespace) absent raises `LookupError` before modifying any target
when the ambient cause variable is unset, `None`, or a non-resource cause;
`append_owner_reference` and `remove_owner_reference` with an explicit
owner, and `harmonize_naming`/`adjust_namespace` with an explicit non-None
name/namespace, never consult the ambient variable; `adopt` with an
explicit owner uses the owner itself as-is, but its inner name/namespace
defaulting re-consults the ambient variable when the owner's metadata
lacks a name or namespace — ambient independence for `adopt` holds when
both are present. -/
theorem guess_owner_defaulting_amended :
    (∀ (a : Ambient) (objs : List PyDict) (forced strict : Bool), BadAmbient a →
      append_owner_reference a Option.none objs = (some .lookupError, objs) ∧
      remove_owner_reference a Option.none objs = (some .lookupError, objs) ∧
      adopt a Option.none objs = (some .lookupError, objs) ∧
      harmonize_naming a .none forced strict objs = (some .lookupError, objs) ∧
      adjust_namespace a .none forced objs = (some .lookupError, objs)) ∧
    (∀ (a1 a2 : Ambient) (owner : Body) (objs : List PyDict),
      append_owner_reference a1 (some owner) objs =
        append_owner_reference a2 (some owner) objs ∧
      remove_owner_reference a1 (some owner) objs =
        remove_owner_reference a2 (some owner) objs) ∧
    (∀ (a1 a2 : Ambient) (nm : PyObj) (forced strict : Bool) (objs : List PyDict),
      nm.isNone = false →
      harmonize_naming a1 nm forced strict objs =
        harmonize_naming a2 nm forced strict objs) ∧
    (∀ (a1 a2 : Ambient) (ns : PyObj) (forced : Bool) (objs : List PyDict),
      ns.isNone = false →
      adjust_namespace a1 ns forced objs = adjust_namespace a2 ns forced objs) ∧
    (∀ (a1 a2 : Ambient) (owner : Body) (objs : List PyDict),
      (bodyMetaField owner "name").isNone = false →
      (bodyMetaField owner "namespace").isNone = false →
      adopt a1 (some owner) objs = adopt a2 (some owner) objs) := by
  have hharm : ∀ (a1 a2 : Ambient) (nm : PyObj) (forced strict : Bool)
      (objs : List PyDict), nm.isNone = false →
      harmonize_naming a1 nm forced strict objs =
        harmonize_naming a2 nm forced strict objs := by
    intro a1 a2 nm forced strict objs hnm
    simp [harmonize_naming, hnm]
  have hadj : ∀ (a1 a2 : Ambient) (ns : PyObj) (forced : Bool)
      (objs : List PyDict), ns.isNone = false →
      adjust_namespace a1 ns forced objs = adjust_namespace a2 ns forced objs := by
    intro a1 a2 ns forced objs hns
    simp [adjust_namespace, hns]
  refine ⟨?_, ?_, hharm, hadj, ?_⟩
  · intro a objs forced strict h
    have hg := guess_owner_bad a h
    refine ⟨?_, ?_, ?_, ?_, ?_⟩
    · simp [append_owner_reference, hg]
    · simp [remove_owner_reference, hg]
    · simp [adopt, hg]
    · simp only [harmonize_naming, PyObj.isNone, hg]
      rfl
    · simp only [adjust_namespace, PyObj.isNone, hg]
      rfl
  · intro a1 a2 owner objs
    exact ⟨rfl, rfl⟩
  · intro a1 a2 owner objs hn hns
    have happ : append_owner_reference a1 (some owner) objs =
        append_owner_reference a2 (some owner) objs := rfl
    simp only [adopt, guess_owner, happ, metaGet_body,
      hharm a1 a2, hadj a1 a2, hn, hns]

theorem guess_owner_defaulting_amended_witness :
    BadAmbient Option.none ∧
    append_owner_reference Option.none Option.none [[]] =
      (some .lookupError, [[]]) ∧
    ((bodyMetaField c10rd.body "name").isNone = false) ∧
    ((bodyMetaField c10rd.body "namespace").isNone = false) ∧
    adopt (some Option.none) (some c10rd.body) [[]] =
      adopt Option.none (some c10rd.body) [[]] := by
  have hbad : BadAmbient Option.none := Or.inl rfl
  exact ⟨hbad,
    (guess_owner_defaulting_amended.1 Option.none [[]] false false hbad).1,
    rfl, rfl,
    guess_owner_defaulting_amended.2.2.2.2 (some Option.none) Option.none
      c10rd.body [[]] rfl rfl⟩

end Kopf
